import Mathlib

/-!
Verification of the moving-checklist task-management backend.

This file gives a shallow embedding of the token service
(db/tokens_store.go and the GetUserByToken method of the user store),
the ownership-scoped task store (the task-store section of
db/tokens_store.go), the non-scoped task store (db/task_store.go), the
task HTTP handlers (api/task_handler.go) and the authentication
middleware, and proves the properties claimed about them.

Modelling conventions:
- SQL tables are lists of rows; a query predicate becomes a Bool
  predicate over rows.  Row order stands in for the unspecified SQL
  scan order; theorems that need it carry the PRIMARY KEY or FOREIGN
  KEY facts of the schema as hypotheses.
- Timestamps and durations are Int (an absolute instant / a span);
  sql.NullTime is Option Int; CURRENT_TIMESTAMP and time.Now become
  explicit parameters.
- The external crypto primitive base64url(sha256(x)) from
  crypto/sha256 is an opaque deterministic function, so every
  definition is parameterized by hashFn; likewise time.Parse
  (RFC3339) by parseTime and Time.Format by formatTime.  The concrete
  stand-ins modelHash, modelParseTime and modelFormatTime below are
  used only to instantiate closed statements.
- Go functions returning (value, error) become Except or Option
  values; database-driver failures (connection loss etc.) are outside
  the model, so the corresponding arms never fire.
- crypto/rand randomness becomes the explicit rawToken input of
  GenerateToken, and the BIGSERIAL generated id the genID input of
  CreateTask.
-/

set_option maxRecDepth 4000

namespace MovingChecklist

/-- Row of the users table (db.User in user_store.go). -/
structure User where
  id : Int
  username : String
  email : String
  passwordHash : String
  createdAt : Int
  updatedAt : Int
deriving DecidableEq, Repr

/-- Row of the tokens table (db.Token in tokens_store.go); the token
field holds the stored (hashed) value, per the INSERT in
GenerateToken. -/
structure Token where
  token : String
  userID : Int
  expiry : Int
  scope : String
deriving DecidableEq, Repr

/-- Row of the tasks table (db.Task). -/
structure Task where
  id : Int
  userID : Int
  name : String
  description : String
  category : String
  isComplete : Bool
  dueDate : Option Int
  createdAt : Option Int
  updatedAt : Option Int
deriving DecidableEq, Repr

/-- Concrete stand-in for the external primitive
base64url(sha256(x)).  The development is parameterized over the hash
function exactly as the Go code treats crypto/sha256: a fixed
deterministic function of its input.  This stand-in only instantiates
closed witness statements. -/
def modelHash (s : String) : String := "sha256:" ++ s

/-- Concrete stand-in for time.Parse(time.RFC3339, s): used only to
instantiate closed witness statements. -/
def modelParseTime (s : String) : Option Int :=
  if s = "" then none else some (Int.ofNat s.length)

/-- Concrete stand-in for Time.Format(time.RFC3339): used only to
instantiate closed witness statements. -/
def modelFormatTime (t : Int) : String := "time:" ++ toString t

/-- Character-list split used to model Go strings.Split: splits at
every occurrence of sep, keeping empty segments, and yields one
segment for the empty input, exactly as strings.Split does. -/
def splitChar (sep : Char) : List Char → List (List Char)
  | [] => [[]]
  | c :: cs =>
    let r := splitChar sep cs
    if c = sep then [] :: r
    else match r with
      | [] => [[c]]
      | w :: ws => (c :: w) :: ws

/-- Go strings.Split(s, sep) for a one-character separator (the only
use in this code base is the separator " "). -/
def goSplit (sep : Char) (s : String) : List String :=
  (splitChar sep s.data).map String.mk

/-- Go strings.TrimSpace: drops leading and trailing whitespace. -/
def trimSpace (s : String) : String :=
  String.mk
    (((s.data.dropWhile Char.isWhitespace).reverse.dropWhile
        Char.isWhitespace).reverse)

/-- Go len(s): the UTF-8 byte length of the string. -/
def utf8Len (s : String) : Nat :=
  s.data.foldl (fun n c => n + c.utf8Size) 0

/-- PostgresTokenStore.GenerateToken (tokens_store.go lines 31-57).
Generates raw bytes (modelled by the rawToken input), hashes them,
inserts (hash, userID, now+ttl, scope) into the tokens table and
returns the raw value together with the new table state. -/
def GenerateToken (hashFn : String → String) (tokens : List Token)
    (userID : Int) (ttl : Int) (scope : String)
    (rawToken : String) (now : Int) : String × List Token :=
  let hashedToken := hashFn rawToken
  (rawToken,
   tokens ++ [{ token := hashedToken, userID := userID,
                expiry := now + ttl, scope := scope }])

/-- Predicate of the WHERE clause in GetUserByToken: stored token
equals the hash of the presented one, scope matches, expiry is in the
future. -/
def tokenRowMatches (hashedToken scope : String) (now : Int)
    (t : Token) : Bool :=
  t.token == hashedToken && t.scope == scope && decide (now < t.expiry)

/-- PostgresUserStore.GetUserByToken (user_store.go lines 197-225).
Hashes the presented token, selects a users row joined through an
unexpired, scope-matching tokens row (LIMIT 1), and returns
(nil, nil) — modelled as .ok none — when no row qualifies. -/
def GetUserByToken (hashFn : String → String) (users : List User)
    (tokens : List Token) (token scope : String) (now : Int) :
    Except String (Option User) :=
  let hashedToken := hashFn token
  let rows := tokens.filter (tokenRowMatches hashedToken scope now)
  match rows.findSome? (fun t => users.find? (fun u => u.id == t.userID)) with
  | none => Except.ok none
  | some u => Except.ok (some u)

/-- The distinguished not-found error of the task stores: the scoped
store returns db.ErrTaskNotFound, the non-scoped one sql.ErrNoRows;
both signal zero affected or returned rows. -/
inductive TaskErr where
  | taskNotFound
deriving DecidableEq, Repr

/- Ownership-scoped task store: the PostgresTaskStore section of
db/tokens_store.go (lines 98-231), whose predicates pair the task id
with the acting user id. -/
namespace ScopedStore

/-- WHERE id = $1 AND user_id = $2 predicate of the scoped store. -/
def ownedBy (id userID : Int) (t : Task) : Bool :=
  t.id == id && t.userID == userID

/-- CreateTask (tokens_store.go lines 98-130): inserts
(user_id, name, description, category, is_complete, due_date,
CURRENT_TIMESTAMP, CURRENT_TIMESTAMP) RETURNING id.  Only the id is
scanned back, so the returned struct keeps the createdAt/updatedAt the
caller put in it while the stored row has the database timestamps. -/
def CreateTask (tasks : List Task) (task : Task) (genID dbNow : Int) :
    Task × List Task :=
  let stored := { task with id := genID, createdAt := some dbNow,
                            updatedAt := some dbNow }
  let returned := { task with id := genID }
  (returned, tasks ++ [stored])

/-- DeleteTask (tokens_store.go lines 132-149): DELETE WHERE id AND
user_id; zero affected rows yields ErrTaskNotFound. -/
def DeleteTask (tasks : List Task) (id userID : Int) :
    Except TaskErr (List Task) :=
  let affected := tasks.countP (ownedBy id userID)
  if affected == 0 then Except.error TaskErr.taskNotFound
  else Except.ok (tasks.filter (fun t => !(ownedBy id userID t)))

/-- UpdateTask (tokens_store.go lines 151-199): UPDATE SET name,
description, category, is_complete, due_date, updated_at WHERE id AND
user_id; zero affected rows yields ErrTaskNotFound (the transaction is
then rolled back, leaving the table as it was). -/
def UpdateTask (tasks : List Task) (task : Task) :
    Except TaskErr (List Task) :=
  let affected := tasks.countP (ownedBy task.id task.userID)
  let updated := tasks.map (fun t =>
    if ownedBy task.id task.userID t then
      { t with name := task.name, description := task.description,
               category := task.category, isComplete := task.isComplete,
               dueDate := task.dueDate, updatedAt := task.updatedAt }
    else t)
  if affected == 0 then Except.error TaskErr.taskNotFound
  else Except.ok updated

/-- GetTaskByID (tokens_store.go lines 201-231): SELECT WHERE id AND
user_id; sql.ErrNoRows becomes ErrTaskNotFound. -/
def GetTaskByID (tasks : List Task) (id userID : Int) :
    Except TaskErr Task :=
  match tasks.find? (ownedBy id userID) with
  | none => Except.error TaskErr.taskNotFound
  | some t => Except.ok t

end ScopedStore

/- Non-scoped task store: db/task_store.go, whose predicates use the
task id alone. -/
namespace UnscopedStore

/-- GetTaskByID (task_store.go lines 139-168): SELECT id, name,
description, category, is_complete, due_date, created_at, updated_at
WHERE id = $1; sql.ErrNoRows becomes (nil, nil), modelled as none.
The SELECT list omits user_id, so the scanned struct keeps the Go
zero value 0 in that field. -/
def GetTaskByID (tasks : List Task) (id : Int) : Option Task :=
  (tasks.find? (fun t => t.id == id)).map (fun t => { t with userID := 0 })

/-- Effect of the non-scoped UPDATE statement on one row: rows whose
id matches get the SET columns name, description, category,
is_complete, due_date, updated_at; others are untouched. -/
def applyUpdate (task : Task) (t : Task) : Task :=
  if t.id == task.id then
    { t with name := task.name, description := task.description,
             category := task.category, isComplete := task.isComplete,
             dueDate := task.dueDate, updatedAt := task.updatedAt }
  else t

/-- UpdateTask (task_store.go lines 91-137): UPDATE SET name,
description, category, is_complete, due_date, updated_at WHERE
id = $7; zero affected rows yields sql.ErrNoRows. -/
def UpdateTask (tasks : List Task) (task : Task) :
    Except TaskErr (List Task) :=
  let affected := tasks.countP (fun t => t.id == task.id)
  if affected == 0 then Except.error TaskErr.taskNotFound
  else Except.ok (tasks.map (applyUpdate task))

end UnscopedStore

/-- api.TaskRequest: the decoded POST /tasks body (task_handler.go
lines 24-30); due_date arrives as an RFC3339 string. -/
structure TaskRequest where
  name : String
  description : String
  category : String
  isComplete : Bool
  dueDate : String
deriving DecidableEq, Repr

/-- api.ValidationMode with its two constants ValidateCreate and
ValidateUpdate (task_handler.go lines 32-37). -/
inductive ValidationMode where
  | ValidateCreate
  | ValidateUpdate
deriving DecidableEq, Repr

/-- validateTaskInput (task_handler.go lines 245-267).  The Go errors
map assigns each key at most once, in source order name, category,
due_date; it is modelled as the ordered association list of those
assignments.  Go len counts UTF-8 bytes, hence utf8Len. -/
def validateTaskInput (parseTime : String → Option Int)
    (input : TaskRequest) (mode : ValidationMode) :
    List (String × String) :=
  (if mode = ValidationMode.ValidateCreate then
    (if trimSpace input.name = "" then [("name", "name is required")]
     else if utf8Len input.name > 100 then
       [("name", "name must be less than 100 characters")]
     else [])
   else []) ++
  (if utf8Len input.category > 50 then
    [("category", "category must be less than 50 characters")]
   else []) ++
  (if input.dueDate ≠ "" then
    (match parseTime input.dueDate with
     | none =>
       [("due_date",
         "due_date must be in RFC3339 format (e.g., 2025-05-17T15:04:05Z)")]
     | some _ => [])
   else [])

/-- Outcome of HandleCreateTask; each constructor records one WriteJSON
call of the handler (the JSON-decode failure arm is outside the model
because the body arrives already decoded). -/
inductive CreateTaskResult where
  | validationError (errors : List (String × String))
  | createFailed
  | created (task : Task)
deriving DecidableEq, Repr

/-- HTTP status written for each HandleCreateTask outcome. -/
def CreateTaskResult.status : CreateTaskResult → Nat
  | .validationError _ => 400
  | .createFailed => 500
  | .created _ => 201

/-- HandleCreateTask (task_handler.go lines 46-93).  The caller
parameter is the authenticated user the middleware attached to the
request context; the handler body never consults it (the source only
has the comment "area for checking correct user"), so the db.Task
literal it builds leaves UserID at the Go zero value 0.  On a parse
failure of due_date the error is discarded and the zero instant kept
(parsed, _ := time.Parse...), mirrored by getD 0. -/
def HandleCreateTask (parseTime : String → Option Int) (caller : User)
    (input : TaskRequest) (tasks : List Task) (now genID dbNow : Int) :
    CreateTaskResult × List Task :=
  let validationErrors := validateTaskInput parseTime input
      ValidationMode.ValidateCreate
  if validationErrors.length > 0 then
    (CreateTaskResult.validationError validationErrors, tasks)
  else
    let dueDate : Option Int :=
      if input.dueDate ≠ "" then some ((parseTime input.dueDate).getD 0)
      else none
    let task : Task :=
      { id := 0, userID := 0, name := input.name,
        description := input.description, category := input.category,
        isComplete := input.isComplete, dueDate := dueDate,
        createdAt := some now, updatedAt := some now }
    let r := ScopedStore.CreateTask tasks task genID dbNow
    (CreateTaskResult.created r.1, r.2)

/-- The anonymous struct decoded from the PUT /tasks/id body
(task_handler.go lines 161-167): every field is a pointer, absent
fields stay nil; due_date is a *sql.NullTime, hence the nested
Option. -/
structure UpdateTaskRequest where
  name : Option String
  description : Option String
  category : Option String
  isComplete : Option Bool
  dueDate : Option (Option Int)
deriving DecidableEq, Repr

/-- derefString (task_handler.go lines 269-274). -/
def derefString (s : Option String) : String := s.getD ""

/-- derefNullTime (task_handler.go lines 276-281). -/
def derefNullTime (formatTime : Int → String)
    (nt : Option (Option Int)) : String :=
  match nt with
  | some (some t) => formatTime t
  | _ => ""

/-- The api.TaskRequest literal HandleUpdateTaskByID builds from the
decoded body (task_handler.go lines 178-182): only Name, Category and
DueDate are set, the other fields keep their Go zero values. -/
def updateTaskReq (formatTime : Int → String)
    (body : UpdateTaskRequest) : TaskRequest :=
  { name := derefString body.name, description := "",
    category := derefString body.category, isComplete := false,
    dueDate := derefNullTime formatTime body.dueDate }

/-- Outcome of HandleUpdateTaskByID, one constructor per WriteJSON
call reachable in the model (the id-parse and JSON-decode failures are
outside it: id and body arrive already decoded). -/
inductive UpdateTaskResult where
  | notFound
  | validationError (errors : List (String × String))
  | updateFailed
  | ok (task : Task)
deriving DecidableEq, Repr

/-- HTTP status written for each HandleUpdateTaskByID outcome. -/
def UpdateTaskResult.status : UpdateTaskResult → Nat
  | .notFound => 404
  | .validationError _ => 400
  | .updateFailed => 500
  | .ok _ => 200

/-- The field-merge block of HandleUpdateTaskByID (task_handler.go
lines 190-211): each non-nil pointer of the body overwrites the
corresponding field of the fetched task, then updated_at is
stamped. -/
def mergeTask (existingTask : Task) (body : UpdateTaskRequest)
    (now : Int) : Task :=
  let t1 := match body.name with
    | some n => { existingTask with name := n }
    | none => existingTask
  let t2 := match body.description with
    | some d => { t1 with description := d }
    | none => t1
  let t3 := match body.category with
    | some c => { t2 with category := c }
    | none => t2
  let t4 := match body.isComplete with
    | some b => { t3 with isComplete := b }
    | none => t3
  let t5 := match body.dueDate with
    | some nt => { t4 with dueDate := nt }
    | none => t4
  { t5 with updatedAt := some now }

/-- HandleUpdateTaskByID (task_handler.go lines 139-223): fetches the
existing task (nil yields 404), validates the derefed body in update
mode, overwrites exactly the fields whose pointers are non-nil, stamps
updated_at, persists through the non-scoped store and answers 200 with
the merged task. -/
def HandleUpdateTaskByID (parseTime : String → Option Int)
    (formatTime : Int → String) (tasks : List Task) (taskID : Int)
    (body : UpdateTaskRequest) (now : Int) :
    UpdateTaskResult × List Task :=
  match UnscopedStore.GetTaskByID tasks taskID with
  | none => (UpdateTaskResult.notFound, tasks)
  | some existingTask =>
    let validationErrors := validateTaskInput parseTime
        (updateTaskReq formatTime body) ValidationMode.ValidateUpdate
    if validationErrors.length > 0 then
      (UpdateTaskResult.validationError validationErrors, tasks)
    else
      let t6 := mergeTask existingTask body now
      match UnscopedStore.UpdateTask tasks t6 with
      | Except.error _ => (UpdateTaskResult.updateFailed, tasks)
      | Except.ok newTasks => (UpdateTaskResult.ok t6, newTasks)

/-- Outcome of HandleGetTaskByID; given a well-formed id the handler
reaches WriteJSON(200, task) with whatever the store returned,
including nil (the store-error arm is outside the model). -/
inductive GetTaskResult where
  | ok (task : Option Task)
deriving DecidableEq, Repr

/-- HTTP status written for each HandleGetTaskByID outcome. -/
def GetTaskResult.status : GetTaskResult → Nat
  | .ok _ => 200

/-- HandleGetTaskByID (task_handler.go lines 225-243): after a
successful store call it unconditionally answers 200 with the value
the store returned — there is no nil check, unlike the sibling update
handler. -/
def HandleGetTaskByID (tasks : List Task) (taskID : Int) :
    GetTaskResult :=
  GetTaskResult.ok (UnscopedStore.GetTaskByID tasks taskID)

/-- Outcome of the Authenticate middleware: either a WriteJSON
rejection with its status and message, or the request continues to the
next handler carrying the context user (none = anonymous). -/
inductive AuthResult where
  | rejected (status : Nat) (message : String)
  | passed (user : Option User)
deriving DecidableEq, Repr

/-- AuthMiddleware.Authenticate (middleware, lines 320-349 of the
handler file).  resolve abstracts UserStore.GetUserByToken; a missing
header passes through anonymous, a header that is not exactly two
space-separated parts with first part Bearer is rejected before any
resolution, and a resolver error or nil user is rejected with the
uniform message. -/
def Authenticate (resolve : String → String → Except String (Option User))
    (authHeader : String) : AuthResult :=
  if authHeader = "" then AuthResult.passed none
  else
    match goSplit ' ' authHeader with
    | [p0, p1] =>
      if p0 = "Bearer" then
        match resolve p1 "auth" with
        | Except.ok (some user) => AuthResult.passed (some user)
        | _ => AuthResult.rejected 401 "invalid or expired token"
      else AuthResult.rejected 401 "invalid authorization header"
    | _ => AuthResult.rejected 401 "invalid authorization header"

/-- A concrete stored token row of user 7, scope auth, expiry 100,
for closed statements. -/
def expiredTok : Token :=
  { token := modelHash "t1", userID := 7, expiry := 100, scope := "auth" }

/-- A concrete registered user, for closed statements. -/
def alice7 : User :=
  { id := 7, username := "alice", email := "alice@example.com",
    passwordHash := "bcrypt:password123", createdAt := 0, updatedAt := 0 }

/-- The sample create body of the spec scenario, for closed
statements. -/
def packBoxesReq : TaskRequest :=
  { name := "Pack boxes", description := "", category := "Home",
    isComplete := false, dueDate := "" }

/-- A 300-byte description, beyond the 255-character bound the spec
states for the description attribute. -/
def longDescription : String := String.mk (List.replicate 300 'a')

/-- A PUT body that explicitly supplies name as the empty string and
nothing else. -/
def emptyNameBody : UpdateTaskRequest :=
  { name := some "", description := none, category := none,
    isComplete := none, dueDate := none }

/-- A PUT body that supplies only is_complete as true, the sample body
of the spec scenario. -/
def completeOnlyBody : UpdateTaskRequest :=
  { name := none, description := none, category := none,
    isComplete := some true, dueDate := none }

/-- A concrete stored task owned by user 5, for closed statements. -/
def sampleStoredTask : Task :=
  { id := 1, userID := 5, name := "Pack boxes", description := "",
    category := "Home", isComplete := false, dueDate := none,
    createdAt := some 0, updatedAt := some 0 }

/-- Determined filter of the WHERE clause after inserting a fresh
token row: only the new row qualifies. -/
lemma filter_after_insert (hashFn : String → String)
    (tokens : List Token) (userID ttl : Int) (raw : String) (now qt : Int)
    (scope : String)
    (hfresh : ∀ t ∈ tokens, t.token ≠ hashFn raw)
    (hq : qt < now + ttl) :
    (GenerateToken hashFn tokens userID ttl scope raw now).2.filter
        (tokenRowMatches (hashFn raw) scope qt) =
      [{ token := hashFn raw, userID := userID, expiry := now + ttl,
         scope := scope }] := by
  have hold : tokens.filter (tokenRowMatches (hashFn raw) scope qt) = [] := by
    rw [List.filter_eq_nil_iff]
    intro t ht
    simp only [tokenRowMatches, Bool.and_eq_true, beq_iff_eq,
      decide_eq_true_eq]
    rintro ⟨⟨htok, -⟩, -⟩
    exact hfresh t ht htok
  have hnew : tokenRowMatches (hashFn raw) scope qt
      { token := hashFn raw, userID := userID, expiry := now + ttl,
        scope := scope } = true := by
    simp [tokenRowMatches, hq]
  simp only [GenerateToken, List.filter_append, hold, List.nil_append]
  simp [hnew]

/-- C1: round-trip of token issuance and resolution.  For every TTL
greater than zero, if the hash of the freshly generated raw token is
not already a stored token value (the PRIMARY KEY of the tokens table
guarantees the insert would fail otherwise) and the issuing user
exists (the FOREIGN KEY guarantees it), then presenting the returned
raw token to GetUserByToken under scope auth at any instant before
the expiry resolves to a user carrying exactly the issuing user id. -/
theorem c1_token_roundtrip (hashFn : String → String)
    (users : List User) (tokens : List Token)
    (userID ttl : Int) (raw : String) (now qt : Int)
    (httl : 0 < ttl)
    (hfresh : ∀ t ∈ tokens, t.token ≠ hashFn raw)
    (huser : ∃ u ∈ users, u.id = userID)
    (hq : qt < now + ttl) :
    ∃ u, GetUserByToken hashFn users
        (GenerateToken hashFn tokens userID ttl "auth" raw now).2
        (GenerateToken hashFn tokens userID ttl "auth" raw now).1
        "auth" qt = Except.ok (some u) ∧ u.id = userID := by
  obtain ⟨u0, hu0mem, hu0id⟩ := huser
  have hsome : (users.find? (fun v => v.id == userID)).isSome := by
    rw [List.find?_isSome]
    exact ⟨u0, hu0mem, by simpa using hu0id⟩
  obtain ⟨u, hu⟩ := Option.isSome_iff_exists.mp hsome
  have huid : u.id = userID := by simpa using List.find?_some hu
  refine ⟨u, ?_, huid⟩
  have hraw : (GenerateToken hashFn tokens userID ttl "auth" raw now).1 =
      raw := rfl
  rw [hraw]
  simp only [GetUserByToken]
  rw [filter_after_insert hashFn tokens userID ttl raw now qt "auth"
    hfresh hq]
  simp [List.findSome?, hu]

/-- Witness for c1_token_roundtrip: a fresh issuance for alice7 on an
empty tokens table, queried one second before expiry. -/
theorem c1_token_roundtrip_witness :
    ∃ u, GetUserByToken modelHash [alice7]
        (GenerateToken modelHash [] 7 3600 "auth" "raw-tok" 0).2
        (GenerateToken modelHash [] 7 3600 "auth" "raw-tok" 0).1
        "auth" 3599 = Except.ok (some u) ∧ u.id = 7 :=
  c1_token_roundtrip modelHash [alice7] [] 7 3600 "raw-tok" 0 3599
    (by decide) (by decide) (by decide) (by decide)

/-- GetUserByToken yields the not-found value exactly when no stored
row survives the WHERE clause, provided every surviving row could be
joined to a user (the FOREIGN KEY of the tokens table). -/
lemma getUserByToken_ok_none_iff (hashFn : String → String)
    (users : List User) (tokens : List Token) (raw scope : String)
    (now : Int)
    (hfk : ∀ t ∈ tokens, ∃ u ∈ users, u.id = t.userID) :
    GetUserByToken hashFn users tokens raw scope now = Except.ok none ↔
      ∀ t ∈ tokens, ¬(tokenRowMatches (hashFn raw) scope now t = true) := by
  constructor
  · intro hres t ht hmatch
    have hrow : t ∈ tokens.filter (tokenRowMatches (hashFn raw) scope now) :=
      List.mem_filter.mpr ⟨ht, hmatch⟩
    obtain ⟨u0, hu0mem, hu0id⟩ := hfk t ht
    have hfsome : (users.find? (fun u => u.id == t.userID)).isSome := by
      rw [List.find?_isSome]
      exact ⟨u0, hu0mem, by simpa using hu0id⟩
    obtain ⟨u, hu⟩ := Option.isSome_iff_exists.mp hfsome
    simp only [GetUserByToken] at hres
    rcases hfs : (tokens.filter (tokenRowMatches (hashFn raw) scope now)).findSome?
        (fun t => users.find? (fun u => u.id == t.userID)) with _ | v
    · rw [List.findSome?_eq_none_iff] at hfs
      exact Option.noConfusion ((hfs t hrow).symm.trans hu)
    · rw [hfs] at hres
      exact Option.noConfusion (Except.ok.inj hres)
  · intro hnone
    have hfil : tokens.filter (tokenRowMatches (hashFn raw) scope now) = [] :=
      List.filter_eq_nil_iff.mpr hnone
    simp [GetUserByToken, hfil]

/-- C2: token resolution reports not-found as a normal value, never an
error, and does so exactly when the presented hash is absent, or the
(by the PRIMARY KEY unique) stored record is expired at the query
instant, or its scope differs from the requested one; in particular an
expired record never resolves, and a record issued under scope auth
never resolves under any other scope.  The PRIMARY KEY and FOREIGN KEY
facts of the tokens table enter as hypotheses. -/
theorem c2_resolve_not_found_characterisation (hashFn : String → String)
    (users : List User) (tokens : List Token) (raw scope : String)
    (now : Int)
    (hpk : ∀ t1 ∈ tokens, ∀ t2 ∈ tokens, t1.token = t2.token → t1 = t2)
    (hfk : ∀ t ∈ tokens, ∃ u ∈ users, u.id = t.userID) :
    (∃ o, GetUserByToken hashFn users tokens raw scope now =
      Except.ok o) ∧
    (GetUserByToken hashFn users tokens raw scope now = Except.ok none ↔
      ((∀ t ∈ tokens, t.token ≠ hashFn raw) ∨
       (∃ t ∈ tokens, t.token = hashFn raw ∧
         (now ≥ t.expiry ∨ t.scope ≠ scope)))) ∧
    ((∀ t ∈ tokens, t.token = hashFn raw → now ≥ t.expiry) →
      GetUserByToken hashFn users tokens raw scope now = Except.ok none) ∧
    ((∀ t ∈ tokens, t.token = hashFn raw → t.scope = "auth") →
      scope ≠ "auth" →
      GetUserByToken hashFn users tokens raw scope now = Except.ok none) := by
  have hmatch_iff : ∀ t : Token,
      tokenRowMatches (hashFn raw) scope now t = true ↔
        t.token = hashFn raw ∧ t.scope = scope ∧ now < t.expiry := by
    intro t
    simp [tokenRowMatches, and_assoc]
  have hiff : GetUserByToken hashFn users tokens raw scope now =
      Except.ok none ↔
      ((∀ t ∈ tokens, t.token ≠ hashFn raw) ∨
       (∃ t ∈ tokens, t.token = hashFn raw ∧
         (now ≥ t.expiry ∨ t.scope ≠ scope))) := by
    rw [getUserByToken_ok_none_iff hashFn users tokens raw scope now hfk]
    constructor
    · intro hnone
      by_cases hA : ∀ t ∈ tokens, t.token ≠ hashFn raw
      · exact Or.inl hA
      · push_neg at hA
        obtain ⟨t0, ht0mem, ht0tok⟩ := hA
        refine Or.inr ⟨t0, ht0mem, ht0tok, ?_⟩
        have := hnone t0 ht0mem
        rw [hmatch_iff] at this
        push_neg at this
        rcases Classical.em (t0.scope = scope) with hsc | hsc
        · exact Or.inl (this ht0tok hsc)
        · exact Or.inr hsc
    · intro hrhs t ht hm
      rw [hmatch_iff] at hm
      obtain ⟨htok, hsc, hexp⟩ := hm
      rcases hrhs with hA | ⟨t0, ht0mem, ht0tok, hbad⟩
      · exact hA t ht htok
      · have hteq : t = t0 := hpk t ht t0 ht0mem (htok.trans ht0tok.symm)
        subst hteq
        rcases hbad with hbad | hbad
        · exact absurd hexp (Int.not_lt.mpr hbad)
        · exact hbad hsc
  refine ⟨?_, hiff, ?_, ?_⟩
  · rcases hfs : (tokens.filter (tokenRowMatches (hashFn raw) scope now)).findSome?
        (fun t => users.find? (fun u => u.id == t.userID)) with _ | v
    · exact ⟨none, by simp [GetUserByToken, hfs]⟩
    · exact ⟨some v, by simp [GetUserByToken, hfs]⟩
  · intro hexp
    rw [hiff]
    by_cases hA : ∀ t ∈ tokens, t.token ≠ hashFn raw
    · exact Or.inl hA
    · push_neg at hA
      obtain ⟨t0, ht0mem, ht0tok⟩ := hA
      exact Or.inr ⟨t0, ht0mem, ht0tok, Or.inl (hexp t0 ht0mem ht0tok)⟩
  · intro hsc hne
    rw [hiff]
    by_cases hA : ∀ t ∈ tokens, t.token ≠ hashFn raw
    · exact Or.inl hA
    · push_neg at hA
      obtain ⟨t0, ht0mem, ht0tok⟩ := hA
      refine Or.inr ⟨t0, ht0mem, ht0tok, Or.inr ?_⟩
      rw [hsc t0 ht0mem ht0tok]
      exact fun hc => hne hc.symm

/-- Witness for c2_resolve_not_found_characterisation: one stored,
already expired auth token of alice7, queried at a later instant. -/
theorem c2_resolve_not_found_witness :
    (∃ o, GetUserByToken modelHash [alice7] [expiredTok] "t1" "auth" 200 =
      Except.ok o) ∧
    (GetUserByToken modelHash [alice7] [expiredTok] "t1" "auth" 200 =
        Except.ok none ↔
      ((∀ t ∈ [expiredTok], t.token ≠ modelHash "t1") ∨
       (∃ t ∈ [expiredTok], t.token = modelHash "t1" ∧
         ((200 : Int) ≥ t.expiry ∨ t.scope ≠ "auth")))) ∧
    ((∀ t ∈ [expiredTok], t.token = modelHash "t1" → (200 : Int) ≥ t.expiry) →
      GetUserByToken modelHash [alice7] [expiredTok] "t1" "auth" 200 =
        Except.ok none) ∧
    ((∀ t ∈ [expiredTok], t.token = modelHash "t1" → t.scope = "auth") →
      ("auth" : String) ≠ "auth" →
      GetUserByToken modelHash [alice7] [expiredTok] "t1" "auth" 200 =
        Except.ok none) :=
  c2_resolve_not_found_characterisation modelHash [alice7] [expiredTok]
    "t1" "auth" 200 (by decide) (by decide)

/-- C3: cross-user isolation of the ownership-scoped task store.  For
a task T of user U1 and any other user id u2 (with the id uniqueness
the PRIMARY KEY of the tasks table provides), the scoped read, update
and delete by u2 all report not-found, and no stored row even matches
their ownership predicate, so the row of T is left untouched. -/
theorem c3_cross_user_isolation (tasks : List Task) (T : Task) (u2 : Int)
    (hmem : T ∈ tasks)
    (hpk : ∀ t ∈ tasks, t.id = T.id → t = T)
    (hneq : T.userID ≠ u2) :
    ScopedStore.GetTaskByID tasks T.id u2 =
      Except.error TaskErr.taskNotFound ∧
    (∀ patch : Task, patch.id = T.id → patch.userID = u2 →
      ScopedStore.UpdateTask tasks patch =
        Except.error TaskErr.taskNotFound) ∧
    ScopedStore.DeleteTask tasks T.id u2 =
      Except.error TaskErr.taskNotFound ∧
    (∀ t ∈ tasks, ScopedStore.ownedBy T.id u2 t = false) := by
  have hfalse : ∀ t ∈ tasks, ScopedStore.ownedBy T.id u2 t = false := by
    intro t ht
    simp only [ScopedStore.ownedBy, Bool.and_eq_false_iff, beq_eq_false_iff_ne,
      ne_eq]
    by_cases hid : t.id = T.id
    · right
      have : t = T := hpk t ht hid
      subst this
      exact hneq
    · exact Or.inl hid
  have hcount : tasks.countP (ScopedStore.ownedBy T.id u2) = 0 := by
    rw [List.countP_eq_zero]
    intro t ht
    simp [hfalse t ht]
  refine ⟨?_, ?_, ?_, hfalse⟩
  · have hfind : tasks.find? (ScopedStore.ownedBy T.id u2) = none := by
      rw [List.find?_eq_none]
      intro t ht
      simp [hfalse t ht]
    simp [ScopedStore.GetTaskByID, hfind]
  · intro patch hid huid
    have : tasks.countP (ScopedStore.ownedBy patch.id patch.userID) = 0 := by
      rw [hid, huid]
      exact hcount
    simp [ScopedStore.UpdateTask, this]
  · simp [ScopedStore.DeleteTask, hcount]

/-- Witness for c3_cross_user_isolation: the sample stored task of
user 5 accessed by user 9. -/
theorem c3_cross_user_isolation_witness :
    ScopedStore.GetTaskByID [sampleStoredTask] sampleStoredTask.id 9 =
      Except.error TaskErr.taskNotFound ∧
    (∀ patch : Task, patch.id = sampleStoredTask.id → patch.userID = 9 →
      ScopedStore.UpdateTask [sampleStoredTask] patch =
        Except.error TaskErr.taskNotFound) ∧
    ScopedStore.DeleteTask [sampleStoredTask] sampleStoredTask.id 9 =
      Except.error TaskErr.taskNotFound ∧
    (∀ t ∈ [sampleStoredTask],
      ScopedStore.ownedBy sampleStoredTask.id 9 t = false) :=
  c3_cross_user_isolation [sampleStoredTask] sampleStoredTask 9
    (by decide) (by decide) (by decide)

/-- C4: the claim says the create path persists the task with user_id
equal to the authenticated caller.  It does not: HandleCreateTask
never reads the context user and the db.Task literal it builds leaves
UserID at 0, so the authenticated caller alice7 (id 7) creates a row
whose user_id is 0, not 7.  Concretely: on an empty table, the row
persisted for her valid request has user_id 0 while the response does
carry the generated id 1. -/
theorem c4_create_ignores_authenticated_caller :
    alice7.id = 7 ∧
    (HandleCreateTask modelParseTime alice7 packBoxesReq [] 0 1 0).2.map
        Task.userID = [0] ∧
    (HandleCreateTask modelParseTime alice7 packBoxesReq [] 0 1 0).1 =
      CreateTaskResult.created
        { id := 1, userID := 0, name := "Pack boxes", description := "",
          category := "Home", isComplete := false, dueDate := none,
          createdAt := some 0, updatedAt := some 0 } := by
  refine ⟨rfl, ?_, ?_⟩ <;> decide

/-- Field accounting of the merge block: supplied fields take the
supplied value, absent fields keep the fetched value, id and ownership
are never touched, updated_at is stamped. -/
lemma mergeTask_fields (T : Task) (body : UpdateTaskRequest) (now : Int) :
    (mergeTask T body now).id = T.id ∧
    (mergeTask T body now).userID = T.userID ∧
    (mergeTask T body now).name = body.name.getD T.name ∧
    (mergeTask T body now).description =
      body.description.getD T.description ∧
    (mergeTask T body now).category = body.category.getD T.category ∧
    (mergeTask T body now).isComplete =
      body.isComplete.getD T.isComplete ∧
    (mergeTask T body now).dueDate = body.dueDate.getD T.dueDate ∧
    (mergeTask T body now).updatedAt = some now := by
  obtain ⟨bn, bd, bc, bic, bdd⟩ := body
  cases bn <;> cases bd <;> cases bc <;> cases bic <;> cases bdd <;>
    exact ⟨rfl, rfl, rfl, rfl, rfl, rfl, rfl, rfl⟩

/-- Reduction of the update handler on the success path: when the task
is found and validation passes, the handler answers ok with the merged
task and persists it through the non-scoped update. -/
lemma handleUpdate_ok (parseTime : String → Option Int)
    (formatTime : Int → String) (tasks : List Task) (taskID : Int)
    (body : UpdateTaskRequest) (now : Int) (t0 : Task)
    (hfind0 : tasks.find? (fun t => t.id == taskID) = some t0)
    (hval : validateTaskInput parseTime (updateTaskReq formatTime body)
      ValidationMode.ValidateUpdate = []) :
    HandleUpdateTaskByID parseTime formatTime tasks taskID body now =
      (UpdateTaskResult.ok (mergeTask { t0 with userID := 0 } body now),
       tasks.map (UnscopedStore.applyUpdate
         (mergeTask { t0 with userID := 0 } body now))) := by
  have ht0mem : t0 ∈ tasks := List.mem_of_find?_eq_some hfind0
  have ht0id : t0.id = taskID := by simpa using List.find?_some hfind0
  have hget : UnscopedStore.GetTaskByID tasks taskID =
      some { t0 with userID := 0 } := by
    simp [UnscopedStore.GetTaskByID, hfind0]
  have hMid : (mergeTask { t0 with userID := 0 } body now).id = taskID := by
    rw [(mergeTask_fields { t0 with userID := 0 } body now).1]
    exact ht0id
  have hcount : tasks.countP
      (fun t => t.id == (mergeTask { t0 with userID := 0 } body now).id) ≠
        0 := by
    rw [Ne, List.countP_eq_zero]
    push_neg
    have hbeq : (t0.id ==
        (mergeTask { t0 with userID := 0 } body now).id) = true := by
      rw [beq_iff_eq, hMid, ht0id]
    exact ⟨t0, ht0mem, hbeq⟩
  have hupd : UnscopedStore.UpdateTask tasks
      (mergeTask { t0 with userID := 0 } body now) =
      Except.ok (tasks.map (UnscopedStore.applyUpdate
        (mergeTask { t0 with userID := 0 } body now))) := by
    simp only [UnscopedStore.UpdateTask]
    rw [if_neg (by simpa using hcount)]
  simp only [HandleUpdateTaskByID, hget, hval]
  simp [hupd]

/-- C7: partial-update frame condition.  When the task exists and the
derefed body passes update-mode validation, the handler answers 200
with a merged task in which every field not supplied in the body keeps
the previously stored value and every supplied field takes the
supplied value; in particular a body carrying only is_complete true
yields is_complete true with the name unchanged. -/
theorem c7_partial_update_frame (parseTime : String → Option Int)
    (formatTime : Int → String) (tasks : List Task) (taskID : Int)
    (body : UpdateTaskRequest) (now : Int) (t0 : Task)
    (hfind0 : tasks.find? (fun t => t.id == taskID) = some t0)
    (hval : validateTaskInput parseTime (updateTaskReq formatTime body)
      ValidationMode.ValidateUpdate = []) :
    ∃ M newTasks,
      HandleUpdateTaskByID parseTime formatTime tasks taskID body now =
        (UpdateTaskResult.ok M, newTasks) ∧
      (UpdateTaskResult.ok M).status = 200 ∧
      M.name = body.name.getD t0.name ∧
      M.description = body.description.getD t0.description ∧
      M.category = body.category.getD t0.category ∧
      M.isComplete = body.isComplete.getD t0.isComplete ∧
      M.dueDate = body.dueDate.getD t0.dueDate := by
  obtain ⟨-, -, hn, hd, hc, hic, hdd, -⟩ :=
    mergeTask_fields { t0 with userID := 0 } body now
  exact ⟨mergeTask { t0 with userID := 0 } body now, _,
    handleUpdate_ok parseTime formatTime tasks taskID body now t0
      hfind0 hval,
    rfl, hn, hd, hc, hic, hdd⟩

/-- Witness for c7_partial_update_frame: the spec scenario — a PUT
whose body supplies only is_complete true answers 200 with
is_complete true and the stored name kept. -/
theorem c7_partial_update_frame_witness :
    ∃ M newTasks,
      HandleUpdateTaskByID modelParseTime modelFormatTime
        [sampleStoredTask] 1 completeOnlyBody 50 =
        (UpdateTaskResult.ok M, newTasks) ∧
      (UpdateTaskResult.ok M).status = 200 ∧
      M.name = completeOnlyBody.name.getD sampleStoredTask.name ∧
      M.description =
        completeOnlyBody.description.getD sampleStoredTask.description ∧
      M.category = completeOnlyBody.category.getD sampleStoredTask.category ∧
      M.isComplete =
        completeOnlyBody.isComplete.getD sampleStoredTask.isComplete ∧
      M.dueDate = completeOnlyBody.dueDate.getD sampleStoredTask.dueDate :=
  c7_partial_update_frame modelParseTime modelFormatTime
    [sampleStoredTask] 1 completeOnlyBody 50 sampleStoredTask
    (by decide) rfl

/-- C10: in update mode validateTaskInput never emits an error keyed
name, so a PUT body that explicitly supplies the empty string as name
passes validation and the handler persists the task with its name
overwritten by the empty string — the non-empty-name rule is not
enforced on the update path. -/
theorem c10_update_skips_name_validation (parseTime : String → Option Int)
    (formatTime : Int → String) (tasks : List Task) (taskID : Int)
    (now : Int) (t0 : Task)
    (hfind0 : tasks.find? (fun t => t.id == taskID) = some t0) :
    (∀ input, ∀ e ∈ validateTaskInput parseTime input
      ValidationMode.ValidateUpdate, e.1 ≠ "name") ∧
    validateTaskInput parseTime (updateTaskReq formatTime emptyNameBody)
      ValidationMode.ValidateUpdate = [] ∧
    ∃ M newTasks,
      HandleUpdateTaskByID parseTime formatTime tasks taskID
        emptyNameBody now = (UpdateTaskResult.ok M, newTasks) ∧
      M.name = "" ∧
      ∀ t ∈ newTasks, t.id = taskID → t.name = "" := by
  refine ⟨?_, rfl, ?_⟩
  · intro input e he
    simp only [validateTaskInput, reduceCtorEq, if_false,
      List.nil_append, List.mem_append] at he
    rcases he with h | h
    · split at h
      · rw [List.mem_singleton] at h
        rw [h]
        decide
      · exact absurd h (List.not_mem_nil e)
    · split at h
      · split at h
        · rw [List.mem_singleton] at h
          rw [h]
          decide
        · exact absurd h (List.not_mem_nil e)
      · exact absurd h (List.not_mem_nil e)
  · refine ⟨mergeTask { t0 with userID := 0 } emptyNameBody now, _,
      handleUpdate_ok parseTime formatTime tasks taskID emptyNameBody now
        t0 hfind0 rfl, ?_, ?_⟩
    · exact (mergeTask_fields { t0 with userID := 0 }
        emptyNameBody now).2.2.1
    · intro t ht htid
      rw [List.mem_map] at ht
      obtain ⟨s, hsmem, hs⟩ := ht
      have hMname : (mergeTask { t0 with userID := 0 }
          emptyNameBody now).name = "" :=
        (mergeTask_fields { t0 with userID := 0 } emptyNameBody now).2.2.1
      rw [← hs]
      simp only [UnscopedStore.applyUpdate]
      split
      · simpa using hMname
      · rename_i hsid
        exfalso
        apply hsid
        rw [← hs] at htid
        have hMid : (mergeTask { t0 with userID := 0 }
            emptyNameBody now).id = taskID := by
          rw [(mergeTask_fields { t0 with userID := 0 }
            emptyNameBody now).1]
          simpa using List.find?_some hfind0
        simp only [UnscopedStore.applyUpdate] at htid
        split at htid
        · rename_i h2
          exact h2
        · simp [htid, hMid]

/-- Witness for c10_update_skips_name_validation: the empty-name PUT
body against the sample stored task. -/
theorem c10_update_skips_name_validation_witness :
    (∀ input, ∀ e ∈ validateTaskInput modelParseTime input
      ValidationMode.ValidateUpdate, e.1 ≠ "name") ∧
    validateTaskInput modelParseTime
      (updateTaskReq modelFormatTime emptyNameBody)
      ValidationMode.ValidateUpdate = [] ∧
    ∃ M newTasks,
      HandleUpdateTaskByID modelParseTime modelFormatTime
        [sampleStoredTask] 1 emptyNameBody 50 =
        (UpdateTaskResult.ok M, newTasks) ∧
      M.name = "" ∧
      ∀ t ∈ newTasks, t.id = 1 → t.name = "" :=
  c10_update_skips_name_validation modelParseTime modelFormatTime
    [sampleStoredTask] 1 50 sampleStoredTask (by decide)

/-- C8 (amended): create-mode validation enforces the name and
category bounds — empty trimmed name yields the field error "name is
required", an over-100-byte name its length error, an over-50-byte
category its length error — and any nonempty error set makes
HandleCreateTask answer the 400 validation response carrying exactly
those field errors, leaving the store untouched.  The description
length is not validated (see the counterexample). -/
theorem c8_create_validation_bounds (parseTime : String → Option Int)
    (input : TaskRequest) :
    (trimSpace input.name = "" → ("name", "name is required") ∈
      validateTaskInput parseTime input ValidationMode.ValidateCreate) ∧
    (trimSpace input.name ≠ "" → utf8Len input.name > 100 →
      ("name", "name must be less than 100 characters") ∈
        validateTaskInput parseTime input ValidationMode.ValidateCreate) ∧
    (utf8Len input.category > 50 →
      ("category", "category must be less than 50 characters") ∈
        validateTaskInput parseTime input ValidationMode.ValidateCreate) ∧
    (∀ caller tasks now genID dbNow,
      validateTaskInput parseTime input ValidationMode.ValidateCreate ≠
        [] →
      (HandleCreateTask parseTime caller input tasks now genID dbNow).1 =
        CreateTaskResult.validationError
          (validateTaskInput parseTime input
            ValidationMode.ValidateCreate) ∧
      (HandleCreateTask parseTime caller input tasks now genID dbNow).2 =
        tasks ∧
      (CreateTaskResult.validationError
        (validateTaskInput parseTime input
          ValidationMode.ValidateCreate)).status = 400) := by
  refine ⟨?_, ?_, ?_, ?_⟩
  · intro hn
    simp [validateTaskInput, hn]
  · intro hn hlen
    simp [validateTaskInput, hn, hlen]
  · intro hc
    apply List.mem_append_left
    apply List.mem_append_right
    simp [hc]
  · intro caller tasks now genID dbNow hne
    have hpos : 0 < (validateTaskInput parseTime input
        ValidationMode.ValidateCreate).length :=
      List.length_pos.mpr hne
    refine ⟨?_, ?_, rfl⟩ <;>
      simp [HandleCreateTask, hpos]

/-- Witness for c8_create_validation_bounds: a whitespace name is
rejected with the required-name field error and the 400 response on an
empty store. -/
theorem c8_create_validation_bounds_witness :
    (("name", "name is required") ∈
      validateTaskInput modelParseTime
        { name := "   ", description := "", category := "",
          isComplete := false, dueDate := "" }
        ValidationMode.ValidateCreate) ∧
    ((HandleCreateTask modelParseTime alice7
        { name := "   ", description := "", category := "",
          isComplete := false, dueDate := "" } [] 0 1 0).1 =
      CreateTaskResult.validationError
        (validateTaskInput modelParseTime
          { name := "   ", description := "", category := "",
            isComplete := false, dueDate := "" }
          ValidationMode.ValidateCreate)) :=
  ⟨(c8_create_validation_bounds modelParseTime _).1 (by decide),
   ((c8_create_validation_bounds modelParseTime _).2.2.2 alice7 [] 0 1 0
     (by decide)).1⟩

/-- C8 counterexample: the claim also demands a 400 rejection for a
description longer than 255 characters, but validateTaskInput has no
description rule at all: a valid name with a 300-byte description
passes validation with no errors and the create handler answers 201,
not 400. -/
theorem c8_counterexample_description_not_validated :
    utf8Len longDescription = 300 ∧
    validateTaskInput modelParseTime
      { name := "ok", description := longDescription, category := "",
        isComplete := false, dueDate := "" }
      ValidationMode.ValidateCreate = [] ∧
    (HandleCreateTask modelParseTime alice7
      { name := "ok", description := longDescription, category := "",
        isComplete := false, dueDate := "" } [] 0 1 0).1.status = 201 := by
  refine ⟨by decide, rfl, rfl⟩

/-- C9: the claim says GET /tasks/id never yields a success shape
other than 200-with-task or 404.  It does: for the well-formed id 1 on
a store without that task, GetTaskByID returns (nil, nil) and the
handler answers 200 with a null task — there is no 404 path in
HandleGetTaskByID at all. -/
theorem c9_get_absent_task_returns_200_null :
    HandleGetTaskByID [] 1 = GetTaskResult.ok none ∧
    (HandleGetTaskByID [] 1).status = 200 := ⟨rfl, rfl⟩

/-- C5 (amended): GenerateToken persists exactly one new row whose
token column holds the deterministic unsalted hash of the raw value,
returns the raw value to the caller at issuance, and (whenever the
hash differs from the raw value and the raw value was not already in
the table) the raw value itself appears in no stored row. -/
theorem c5_hash_persisted_raw_returned (hashFn : String → String)
    (tokens : List Token) (userID ttl : Int) (scope raw : String)
    (now : Int) :
    (GenerateToken hashFn tokens userID ttl scope raw now).1 = raw ∧
    (GenerateToken hashFn tokens userID ttl scope raw now).2 =
      tokens ++ [{ token := hashFn raw, userID := userID,
                   expiry := now + ttl, scope := scope }] ∧
    (hashFn raw ≠ raw → (∀ t ∈ tokens, t.token ≠ raw) →
      ∀ t ∈ (GenerateToken hashFn tokens userID ttl scope raw now).2,
        t.token ≠ raw) := by
  refine ⟨rfl, rfl, ?_⟩
  intro hne hold t ht
  simp only [GenerateToken, List.mem_append, List.mem_singleton] at ht
  rcases ht with h | h
  · exact hold t h
  · subst h
    simpa using hne

/-- Witness for c5_hash_persisted_raw_returned at a concrete
issuance. -/
theorem c5_hash_persisted_raw_returned_witness :
    (GenerateToken modelHash [] 3 3600 "auth" "tok" 0).1 = "tok" ∧
    (GenerateToken modelHash [] 3 3600 "auth" "tok" 0).2 =
      [{ token := modelHash "tok", userID := 3, expiry := 0 + 3600,
         scope := "auth" }] ∧
    (∀ t ∈ (GenerateToken modelHash [] 3 3600 "auth" "tok" 0).2,
      t.token ≠ "tok") := by
  obtain ⟨h1, h2, h3⟩ :=
    c5_hash_persisted_raw_returned modelHash [] 3 3600 "auth" "tok" 0
  exact ⟨h1, h2, h3 (by decide) (by simp)⟩

/-- C5 counterexample to the word "salted": the persisted value is a
function of the raw token alone.  Two issuances of the same raw value
for different users, TTLs and instants persist the identical token
column value, which no per-issuance salt would allow. -/
theorem c5_counterexample_hash_is_unsalted :
    (GenerateToken modelHash [] 1 3600 "auth" "tok" 0).2.map Token.token =
      [modelHash "tok"] ∧
    (GenerateToken modelHash [] 2 60 "auth" "tok" 999).2.map Token.token =
      [modelHash "tok"] := ⟨rfl, rfl⟩

/-- C6: a present Authorization header that is not exactly two
space-separated parts with first part Bearer is rejected with 401 and
the fixed message, the outcome is the same whatever the token resolver
does (so resolution is never consulted), and the request never reaches
the downstream handler. -/
theorem c6_malformed_auth_header_rejected
    (resolve resolve' : String → String → Except String (Option User))
    (h : String) (hne : h ≠ "")
    (hmal : (goSplit ' ' h).length ≠ 2 ∨
            (goSplit ' ' h).head? ≠ some "Bearer") :
    Authenticate resolve h =
      AuthResult.rejected 401 "invalid authorization header" ∧
    Authenticate resolve h = Authenticate resolve' h ∧
    ∀ u, Authenticate resolve h ≠ AuthResult.passed u := by
  have key : ∀ res : String → String → Except String (Option User),
      Authenticate res h =
        AuthResult.rejected 401 "invalid authorization header" := by
    intro res
    unfold Authenticate
    rw [if_neg hne]
    rcases hl : goSplit ' ' h with _ | ⟨p0, tl⟩
    · rfl
    · rcases tl with _ | ⟨p1, tl2⟩
      · rfl
      · rcases tl2 with _ | ⟨q, tl3⟩
        · rw [hl] at hmal
          rcases hmal with hbad | hbad
          · simp at hbad
          · simp only [List.head?_cons, ne_eq, Option.some.injEq] at hbad
            simp [hbad]
        · rfl
  refine ⟨key resolve, (key resolve).trans (key resolve').symm, ?_⟩
  intro u hc
  rw [key resolve] at hc
  exact AuthResult.noConfusion hc

/-- Witness for c6_malformed_auth_header_rejected on the concrete
header "Basic abc". -/
theorem c6_malformed_auth_header_rejected_witness :
    Authenticate (fun _ _ => Except.ok none) "Basic abc" =
      AuthResult.rejected 401 "invalid authorization header" ∧
    Authenticate (fun _ _ => Except.ok none) "Basic abc" =
      Authenticate (fun _ _ => Except.ok (some alice7)) "Basic abc" ∧
    ∀ u, Authenticate (fun _ _ => Except.ok none) "Basic abc" ≠
      AuthResult.passed u :=
  c6_malformed_auth_header_rejected _ _ "Basic abc" (by decide)
    (Or.inr (by decide))

end MovingChecklist
